import Mathlib

/-!
Verification of the staged LLM generation pipeline
(`chat/services/{config_manager,context_manager,generation_executor,
staged_generation_service,openrouter_service}.py`).

The Python services are shallowly embedded: JSON-like configuration data is
the inductive `JVal`, the LLM client is an oracle `Llm` from requests to a
success/failure result (mirroring the dict returned by
`OpenRouterService._make_request`, which catches every exception internally),
Python exceptions are the explicit `PyErr` error monad, and the in-process
per-user context store is an association list threaded through the scheduler.
-/

namespace LlmChat

/-- JSON-like Python value as handled by the services. `jobj` models a Python
dict via its (insertion-ordered, key-unique) field list; `jnum` models Python
ints and floats by a rational (the only numeric literal in play is the
temperature `0.7`, which is merely passed through, never computed with). -/
inductive JVal where
  | jnull
  | jbool (b : Bool)
  | jnum (q : ℚ)
  | jstr (s : String)
  | jarr (items : List JVal)
  | jobj (fields : List (String × JVal))

/-- First-match lookup in a dict's field list (dict keys are unique, so this
is Python dict indexing). -/
def jlookup? : List (String × JVal) → String → Option JVal
  | [], _ => none
  | (k', v) :: rest, k => if k' = k then some v else jlookup? rest k

/-- Python `k in d` for a dict. All call sites receive dicts. -/
def hasKeyJ (v : JVal) (k : String) : Bool :=
  match v with
  | .jobj fields => (jlookup? fields k).isSome
  | _ => false

/-- Python `d.get(k, default)`. Every call site receives a dict (prompt items
of a config), so the non-object branch never fires there; it yields the
default for totality. -/
def pyGet (v : JVal) (k : String) (d : JVal) : JVal :=
  match v with
  | .jobj fields => (jlookup? fields k).getD d
  | _ => d

/-- Python truthiness (`if x:`). -/
def pyTruthy : JVal → Bool
  | .jnull => false
  | .jbool b => b
  | .jnum q => decide (q ≠ 0)
  | .jstr s => !s.isEmpty
  | .jarr l => !l.isEmpty
  | .jobj l => !l.isEmpty

/-- Python `isinstance(x, bool)`. -/
def isBoolJ : JVal → Bool
  | .jbool _ => true
  | _ => false

/-- Python `isinstance(x, (int, float))`. Note that in Python `bool` is a
subclass of `int`, so booleans pass this check as well. -/
def isNumJ : JVal → Bool
  | .jnum _ => true
  | .jbool _ => true
  | _ => false

/-- Python `isinstance(x, str)`. -/
def isStrJ : JVal → Bool
  | .jstr _ => true
  | _ => false

/-- An optional flag field: absent, or present and a boolean
(`ConfigManager` optional-field loop). -/
def optBoolField (fields : List (String × JVal)) (k : String) : Bool :=
  match jlookup? fields k with
  | none => true
  | some v => isBoolJ v

/-- `ConfigManager._validate_classic_prompt`: requires a string `prompt`;
the three flags, when present, must be booleans. -/
def validate_classic_prompt (fields : List (String × JVal)) : Bool :=
  match jlookup? fields "prompt" with
  | some (.jstr _) =>
      optBoolField fields "saveLastAsContext" &&
      optBoolField fields "blockOutsideInterstageContext" &&
      optBoolField fields "step-by-stepRequest"
  | _ => false

/-- Python exceptions that the embedded services can raise. -/
inductive PyErr where
  | keyError (key : String)
  | typeError (msg : String)
  | attrError (msg : String)
  | exn (msg : String)

/-- Python `message["role"] not in {"system", "user", "assistant"}`: set
membership hashes the value, so a list or dict role raises
`TypeError: unhashable type`; any other value is hashable, and only the three
enum strings are members. -/
def pyRoleNotIn (role : JVal) : Except PyErr Bool :=
  match role with
  | .jarr _ => .error (.typeError "unhashable type: 'list'")
  | .jobj _ => .error (.typeError "unhashable type: 'dict'")
  | .jstr s => .ok (!(s == "system" || s == "user" || s == "assistant"))
  | _ => .ok true

/-- One entry of a structured prompt's `messages` list
(`_validate_structured_prompt` message loop): must be a dict with `role` and
`content` present (checked first), then the role membership test — which can
raise for unhashable roles — then the string check on `content`. -/
def validMessage : JVal → Except PyErr Bool
  | .jobj mfields =>
      match jlookup? mfields "role", jlookup? mfields "content" with
      | some role, some content => do
          let notin ← pyRoleNotIn role
          if notin then return false else return (isStrJ content)
      | _, _ => .ok false
  | _ => .ok false

/-- The message loop: first invalid message wins; a raised `TypeError`
propagates. -/
def validMessages : List JVal → Except PyErr Bool
  | [] => .ok true
  | m :: rest => do
      let ok ← validMessage m
      if ok then validMessages rest else return false

/-- The pure (never-raising) tail of `_validate_structured_prompt`:
`json_schema` (if present, a dict containing `type`), optional numeric
`temperature` and boolean flags. -/
def structuredTailOk (fields : List (String × JVal)) : Bool :=
  (match jlookup? fields "json_schema" with
   | none => true
   | some (.jobj sfields) => (jlookup? sfields "type").isSome
   | some _ => false) &&
  (match jlookup? fields "temperature" with
   | none => true
   | some v => isNumJ v) &&
  optBoolField fields "saveLastAsContext" &&
  optBoolField fields "blockOutsideInterstageContext" &&
  optBoolField fields "step-by-stepRequest"

/-- `ConfigManager._validate_structured_prompt`. -/
def validate_structured_prompt (fields : List (String × JVal)) : Except PyErr Bool :=
  match jlookup? fields "messages" with
  | some (.jarr msgs) =>
      if msgs.isEmpty then .ok false
      else do
        let mok ← validMessages msgs
        if mok then return (structuredTailOk fields) else return false
  | _ => .ok false

/-- A prompt item is Structured when it has a `messages` field, Classic
otherwise (`ConfigManager.validate_config` inner loop). -/
def validate_prompt_item : JVal → Except PyErr Bool
  | .jobj fields =>
      if (jlookup? fields "messages").isSome then validate_structured_prompt fields
      else .ok (validate_classic_prompt fields)
  | _ => .ok false

/-- The prompt-item loop of a stage: first invalid item wins; exceptions
propagate. -/
def validateItems : List JVal → Except PyErr Bool
  | [] => .ok true
  | i :: rest => do
      let ok ← validate_prompt_item i
      if ok then validateItems rest else return false

/-- A stage must map to a non-empty list of valid prompt items. -/
def validate_stage : JVal → Except PyErr Bool
  | .jarr items => if items.isEmpty then .ok false else validateItems items
  | _ => .ok false

/-- The stage loop of `validate_config` (stage names are strings in the
embedding, so the `isinstance(stage_name, str)` check always passes). -/
def validateStages : List (String × JVal) → Except PyErr Bool
  | [] => .ok true
  | (_, v) :: rest => do
      let ok ← validate_stage v
      if ok then validateStages rest else return false

/-- `ConfigManager.validate_config`: a non-empty dict of stage name to valid
stage. Free of side effects; it inspects only types and keys and catches
nothing, so its single raising path — the set-membership test on an
unhashable message role — propagates as `TypeError` to the caller. -/
def validate_config : JVal → Except PyErr Bool
  | .jobj fields => if fields.isEmpty then .ok false else validateStages fields
  | _ => .ok false

/-- One chat message of an API request. The role is whatever value the config
carried (`"user"`, `"system"`, ... as `jstr`; Python would forward a non-string
role untouched, hence `JVal`). -/
structure Message where
  role : JVal
  content : String

/-- The request payload `OpenRouterService._make_request` sends: the message
list, the raw `temperature` value, and the `response_format` section when a
JSON schema is attached. (`stage_info` / `prompt_info` are logging-only and
never reach the API, so they are not part of the request.) -/
structure LlmRequest where
  messages : List Message
  temperature : JVal
  response_format : Option JVal

/-- The observable part of the dict `_make_request` returns: `success` plus
either `response.response_content` or `error`. `_make_request` catches every
exception internally, hence no error monad here. -/
inductive LlmResult where
  | success (text : String)
  | failure (error : String)

/-- The LLM client as a deterministic oracle. -/
def Llm := LlmRequest → LlmResult

/-- Python `str(e)` as used by `f"[Ошибка генерации: {e}]"`;
`str(KeyError('k'))` is `"'k'"`. -/
def PyErr.message : PyErr → String
  | .keyError k => "'" ++ k ++ "'"
  | .typeError m => m
  | .attrError m => m
  | .exn m => m

/-- `OpenRouterService.generate_response` (via `generate_primary_response`
with an empty history): a single user message, default temperature 0.7, no
response format; on a failed call `_extract_content_from_detailed_response`
raises `Exception(error_msg)`. -/
def generate_response (llm : Llm) (user_message : String) : Except PyErr String :=
  match llm ⟨[⟨.jstr "user", user_message⟩], .jnum (7 / 10), none⟩ with
  | .success t => .ok t
  | .failure e => .error (.exn e)

/-- `OpenRouterService.generate_response_detailed`: same request, but the
detailed dict is returned as-is (never raises). -/
def generate_response_detailed (llm : Llm) (user_message : String) : LlmResult :=
  llm ⟨[⟨.jstr "user", user_message⟩], .jnum (7 / 10), none⟩

/-- Python `str.replace` on character lists: leftmost, non-overlapping. The
`skip` counter consumes the matched pattern's remaining characters after a
replacement, keeping the recursion structural on the list. -/
def replaceGo (pat rep : List Char) : List Char → Nat → List Char
  | [], _ => []
  | _ :: rest, skip + 1 => replaceGo pat rep rest skip
  | c :: rest, 0 =>
      if pat.isPrefixOf (c :: rest) then rep ++ replaceGo pat rep rest (pat.length - 1)
      else c :: replaceGo pat rep rest 0

/-- Python `content.replace("{context}", context)`. -/
def pyReplace (s pat rep : String) : String :=
  ⟨replaceGo pat.data rep.data s.data 0⟩

/-- Python `str(x)` as applied by f-string interpolation. The pipeline only
ever interpolates strings (`jstr`); the remaining branches render Python's
`str` for scalars and are never reached in the claims' domains. -/
def pyFStr : JVal → String
  | .jstr s => s
  | .jbool true => "True"
  | .jbool false => "False"
  | .jnull => "None"
  | .jnum q => toString q
  | .jarr _ => "[...]"
  | .jobj _ => "{...}"

/-- Python `len(x)` (raises `TypeError` on unsized values). -/
def pyLen : JVal → Except PyErr Nat
  | .jstr s => .ok s.length
  | .jarr l => .ok l.length
  | .jobj l => .ok l.length
  | _ => .error (.typeError "object has no len()")

/-- Python `d[k]` on a dict (raises `KeyError` when the key is absent). -/
def pyIndex (v : JVal) (k : String) : Except PyErr JVal :=
  match v with
  | .jobj fields =>
      match jlookup? fields k with
      | some x => .ok x
      | none => .error (.keyError k)
  | _ => .error (.typeError "object is not subscriptable")

/-- One slot of a stage's result list: the dict
`{'response_text': ..., 'block_outside_context': ...}` built by
`GenerationExecutor.execute_stage_prompts`. The flag keeps the raw value the
prompt dict carried (a boolean on validated configs). -/
structure ResponseData where
  response_text : String
  block_outside_context : JVal

/-- One saved inter-generation context entry:
`{'prompt': ..., 'response': ...}`. -/
structure SavedCtx where
  prompt : JVal
  response : String

/-- Rendering of a structured prompt's message list: index `content`,
substitute `{context}` via `str.replace` (an `AttributeError` if the content
is not a string), index `role`, keep order
(`GenerationExecutor._generate_single_response_structured` loop). -/
def renderMessages (context : String) : List JVal → Except PyErr (List Message)
  | [] => .ok []
  | m :: rest => do
      let contentV ← pyIndex m "content"
      let contentS ← match contentV with
        | .jstr s => Except.ok s
        | _ => Except.error (.attrError "object has no attribute replace")
      let roleV ← pyIndex m "role"
      let more ← renderMessages context rest
      return ⟨roleV, pyReplace contentS "{context}" context⟩ :: more

/-- `GenerationExecutor._generate_single_response_structured`: render the
message list, attach `response_format` when a `json_schema` is present, use
the item's `temperature` (default 0.7), call the client; a failed call raises
`Exception("Ошибка структурированной генерации: ...")`. -/
def generate_single_response_structured (llm : Llm) (prompt_item : JVal)
    (context : String) : Except PyErr String := do
  let msgsV ← pyIndex prompt_item "messages"
  let msgs ← match msgsV with
    | .jarr ms => Except.ok ms
    | _ => Except.error (.typeError "object is not iterable")
  let rendered ← renderMessages context msgs
  let response_format : Option JVal :=
    match prompt_item with
    | .jobj fs => (jlookup? fs "json_schema").map (fun schema =>
        JVal.jobj [("type", .jstr "json_schema"), ("json_schema", schema)])
    | _ => none
  let temperature := pyGet prompt_item "temperature" (.jnum (7 / 10))
  match llm ⟨rendered, temperature, response_format⟩ with
  | .success t => .ok t
  | .failure e => .error (.exn ("Ошибка структурированной генерации: " ++ e))

/-- The per-prompt debug-logging loop at the top of
`GenerationExecutor.execute_stage_prompts` (lines 98-102): it evaluates
`len(prompt_item['prompt'])` for every item unconditionally, so it raises
`KeyError('prompt')` on an item without that key. -/
def logPromptsCheck : List JVal → Except PyErr Unit
  | [] => .ok ()
  | p :: rest => do
      let v ← pyIndex p "prompt"
      let _ ← pyLen v
      logPromptsCheck rest

/-- Sequential (step-by-step) mode of `execute_stage_prompts`: one prompt at a
time; only the structured call is wrapped in `try/except` (substituting
`"[Ошибка генерации: ...]"`); a failing classic call propagates. After each
step the running context grows by `"\n\nРезультат предыдущего шага: "` plus
the step's result text. -/
def stepLoop (llm : Llm) : List JVal → String → Except PyErr (List ResponseData)
  | [], _ => .ok []
  | p :: rest, step_context => do
      let response_text ←
        if hasKeyJ p "messages" then
          match generate_single_response_structured llm p step_context with
          | .ok t => Except.ok t
          | .error e => Except.ok ("[Ошибка генерации: " ++ e.message ++ "]")
        else do
          let promptV ← pyIndex p "prompt"
          generate_response llm (step_context ++ "\n\nЗадача: " ++ pyFStr promptV)
      let more ← stepLoop llm rest
        (step_context ++ "\n\nРезультат предыдущего шага: " ++ response_text)
      return ⟨response_text, pyGet p "blockOutsideInterstageContext" (.jbool false)⟩ :: more

/-- One task of the parallel branch of `execute_stage_prompts`: structured
dispatch or `full_prompt = context + "\n\nЗадача: " + prompt_text`. There is
no `try/except` here: a failure propagates out of `asyncio.gather`. -/
def parallelTask (llm : Llm) (context : String) (p : JVal) : Except PyErr String :=
  if hasKeyJ p "messages" then generate_single_response_structured llm p context
  else do
    let promptV ← pyIndex p "prompt"
    generate_response llm (context ++ "\n\nЗадача: " ++ pyFStr promptV)

/-- Parallel mode of `execute_stage_prompts`: all tasks use the same base
context; results keep request order. `asyncio.gather` re-raises a task's
exception (modelled as the first failing task in request order — the claims
never depend on which sibling's exception wins). -/
def parLoop (llm : Llm) (context : String) : List JVal → Except PyErr (List ResponseData)
  | [] => .ok []
  | p :: rest => do
      let t ← parallelTask llm context p
      let more ← parLoop llm context rest
      return ⟨t, pyGet p "blockOutsideInterstageContext" (.jbool false)⟩ :: more

/-- The `saveLastAsContext` sweep at the end of both executor variants: for
every flagged prompt, pair `prompt_item['prompt']` (a `KeyError` if absent)
with that slot's response text, in prompt order. -/
def savedFrom : List (JVal × ResponseData) → Except PyErr (List SavedCtx)
  | [] => .ok []
  | (p, r) :: rest =>
      if pyTruthy (pyGet p "saveLastAsContext" (.jbool false)) then do
        let promptV ← pyIndex p "prompt"
        let more ← savedFrom rest
        return ⟨promptV, r.response_text⟩ :: more
      else savedFrom rest

/-- `GenerationExecutor.execute_stage_prompts`: pick sequential mode when any
prompt carries `step-by-stepRequest`, run the debug-logging loop (which can
itself raise), run the chosen mode, then collect `saveLastAsContext` data. -/
def execute_stage_prompts (llm : Llm) (prompts : List JVal) (context : String) :
    Except PyErr (List ResponseData × List SavedCtx) := do
  let is_step := prompts.any (fun p => pyTruthy (pyGet p "step-by-stepRequest" (.jbool false)))
  logPromptsCheck prompts
  let responses ← if is_step then stepLoop llm prompts context else parLoop llm context prompts
  let saved ← savedFrom (prompts.zip responses)
  return (responses, saved)

/-- Lines `"Промпт: ..." / "Ответ: ..." / ""` for each carried entry
(`ContextManager.prepare_stage_context`, saved-context block). -/
def savedContextLines : List SavedCtx → List String
  | [] => []
  | c :: rest =>
      ("Промпт: " ++ pyFStr c.prompt) :: ("Ответ: " ++ c.response) :: "" ::
        savedContextLines rest

/-- Python `enumerate(responses, 1)` rendering `"  {i}. {response}"`. -/
def numberFrom (i : Nat) : List String → List String
  | [] => []
  | r :: rest => ("  " ++ toString i ++ ". " ++ r) :: numberFrom (i + 1) rest

/-- Per-stage blocks of the prior-results section
(`prepare_stage_context`, `stage_results` loop). -/
def stageResultLines : List (String × List String) → List String
  | [] => []
  | (stage_name, responses) :: rest =>
      ("\n" ++ stage_name ++ ":") :: numberFrom 1 responses ++ stageResultLines rest

/-- `ContextManager.prepare_stage_context`. Note: the `context_history`
argument is accepted but never used by the Python body; the prior-results
block is rendered from the (unfiltered) `stage_results` dict. -/
def prepare_stage_context (user_message : String) (context_history : List String)
    (stage_results : List (String × List String)) (saved_context_data : List SavedCtx) :
    String :=
  let parts := [("Исходный вопрос пользователя: " ++ user_message)]
  let parts := if saved_context_data.isEmpty then parts
    else parts ++ ("\nКонтекст из предыдущей генерации:" :: savedContextLines saved_context_data)
  let parts := if stage_results.isEmpty then parts
    else parts ++ ("\nРезультаты предыдущих этапов:" :: stageResultLines stage_results)
  String.intercalate "\n" parts

/-- `ContextManager.saved_context`: the in-process dict
`user_id -> saved entries`, as a key-unique association list. -/
def Store := List (String × List SavedCtx)

/-- Dict lookup on the store. -/
def storeLookup : Store → String → Option (List SavedCtx)
  | [], _ => none
  | (k, v) :: rest, uid => if k = uid then some v else storeLookup rest uid

/-- Python `del d[uid]` (keys are unique, so filtering is `del`). -/
def storeErase : Store → String → Store
  | [], _ => []
  | (k, v) :: rest, uid => if k = uid then storeErase rest uid else (k, v) :: storeErase rest uid

/-- Dict assignment `d[uid] = entries`: update in place or append. -/
def storeInsert : Store → String → List SavedCtx → Store
  | [], uid, entries => [(uid, entries)]
  | (k, v) :: rest, uid, entries =>
      if k = uid then (uid, entries) :: rest else (k, v) :: storeInsert rest uid entries

/-- `ContextManager.get_saved_context`: read without clearing. -/
def get_saved_context (st : Store) (uid : String) : List SavedCtx :=
  (storeLookup st uid).getD []

/-- `ContextManager.clear_saved_context`: return the stored entries (or `[]`)
and delete the user's key. -/
def clear_saved_context (st : Store) (uid : String) : List SavedCtx × Store :=
  ((storeLookup st uid).getD [], storeErase st uid)

/-- `ContextManager.save_context`: overwrite the user's entries, but a no-op
when the new entry list is empty (`if context_data:`). -/
def save_context (st : Store) (uid : String) (context_data : List SavedCtx) : Store :=
  if context_data.isEmpty then st else storeInsert st uid context_data

/-- Dict assignment for the `stage_results` accumulator. -/
def dictInsert : List (String × List String) → String → List String →
    List (String × List String)
  | [], k, v => [(k, v)]
  | (k', v') :: rest, k, v =>
      if k' = k then (k, v) :: rest else (k', v') :: dictInsert rest k v

/-- Dict lookup for `stage_results[final_stage]`. -/
def dictLookup : List (String × List String) → String → Option (List String)
  | [], _ => none
  | (k', v) :: rest, k => if k' = k then some v else dictLookup rest k

/-- The per-stage loop of `StagedGenerationService.generate_staged_response`:
build the stage context, run the stage, record the full text list under the
stage's name, extend the (ignored-downstream) `context_history` with the
context-eligible subset, and accumulate saved entries. -/
def run_stages (llm : Llm) (user_message : String) (saved : List SavedCtx) :
    List (String × JVal) → List String → List (String × List String) → List SavedCtx →
    Except PyErr (List (String × List String) × List SavedCtx)
  | [], _, stage_results, new_saved => .ok (stage_results, new_saved)
  | (stage_name, stageV) :: rest, context_history, stage_results, new_saved => do
      let prompts ← match stageV with
        | .jarr ps => Except.ok ps
        | _ => Except.error (.typeError "stage prompts are not iterable")
      let stage_context := prepare_stage_context user_message context_history stage_results saved
      let (responses_data, stage_saved) ← execute_stage_prompts llm prompts stage_context
      let responses_for_next := (responses_data.filter
        (fun r => !pyTruthy r.block_outside_context)).map (fun r => r.response_text)
      let all_texts := responses_data.map (fun r => r.response_text)
      run_stages llm user_message saved rest (context_history ++ responses_for_next)
        (dictInsert stage_results stage_name all_texts) (new_saved ++ stage_saved)

/-- Final-output rule (`stage_names[-1]`, then the one-result/`"\n\n".join`
split). Inside the `try`, so its hypothetical errors also hit the fallback. -/
def finalText (fields : List (String × JVal))
    (stage_results : List (String × List String)) : Except PyErr String :=
  match (fields.map Prod.fst).getLast? with
  | none => .error (.exn "list index out of range")
  | some final_stage =>
      match dictLookup stage_results final_stage with
      | none => .error (.keyError final_stage)
      | some final_responses =>
          match final_responses with
          | [r] => .ok r
          | rs => .ok (String.intercalate "\n\n" rs)

/-- `StagedGenerationService.generate_staged_response`. The guard
`if not config or not self.validate_config(config)` runs before the `try`:
an absent or falsy config short-circuits to one direct call without
validating; otherwise `validate_config` runs and a `TypeError` it raises
escapes the entry point; a `False` result falls back to the direct call
(which itself can raise). On a valid config: take-and-clear the carried
context, run the stages, save the new carry, produce the final text; any
exception inside the `try` is caught and answered by the same direct call —
whose own failure escapes. The mutated store is returned alongside the
result. -/
def generate_staged_response (llm : Llm) (config : Option JVal)
    (user_message : String) (user_id : String) (store : Store) :
    Store × Except PyErr String :=
  match config with
  | none => (store, generate_response llm user_message)
  | some c =>
      if pyTruthy c then
        match validate_config c with
        | .error e => (store, .error e)
        | .ok false => (store, generate_response llm user_message)
        | .ok true =>
            match c with
            | .jobj fields =>
                let cleared := clear_saved_context store user_id
                match run_stages llm user_message cleared.1 fields [] [] [] with
                | .error _ => (cleared.2, generate_response llm user_message)
                | .ok (stage_results, new_saved) =>
                    let store2 := save_context cleared.2 user_id new_saved
                    match finalText fields stage_results with
                    | .ok t => (store2, .ok t)
                    | .error _ => (store2, generate_response llm user_message)
            | _ => (store, generate_response llm user_message)
      else (store, generate_response llm user_message)

/-- Text of a slot in the detailed executor: `response_content` on success,
else the substituted `"[Ошибка генерации: ...]"` string. -/
def extractOrError (d : LlmResult) : String :=
  match d with
  | .success t => t
  | .failure e => "[Ошибка генерации: " ++ e ++ "]"

/-- Sequential mode of `execute_stage_prompts_detailed` (classic only: the
detailed executor has no structured branch and always indexes
`prompt_item['prompt']`). -/
def stepLoopD (llm : Llm) : List JVal → String →
    Except PyErr (List ResponseData × List LlmResult)
  | [], _ => .ok ([], [])
  | p :: rest, step_context => do
      let promptV ← pyIndex p "prompt"
      let _ ← pyLen promptV
      let d := generate_response_detailed llm (step_context ++ "\n\nЗадача: " ++ pyFStr promptV)
      let response_text := extractOrError d
      let res ← stepLoopD llm rest
        (step_context ++ "\n\nРезультат предыдущего шага: " ++ response_text)
      return (⟨response_text, pyGet p "blockOutsideInterstageContext" (.jbool false)⟩ :: res.1,
        d :: res.2)

/-- Parallel mode of `execute_stage_prompts_detailed`. -/
def parLoopD (llm : Llm) (context : String) : List JVal →
    Except PyErr (List ResponseData × List LlmResult)
  | [] => .ok ([], [])
  | p :: rest => do
      let promptV ← pyIndex p "prompt"
      let _ ← pyLen promptV
      let d := generate_response_detailed llm (context ++ "\n\nЗадача: " ++ pyFStr promptV)
      let res ← parLoopD llm context rest
      return (⟨extractOrError d, pyGet p "blockOutsideInterstageContext" (.jbool false)⟩ :: res.1,
        d :: res.2)

/-- `GenerationExecutor.execute_stage_prompts_detailed`. -/
def execute_stage_prompts_detailed (llm : Llm) (prompts : List JVal) (context : String) :
    Except PyErr (List ResponseData × List SavedCtx × List LlmResult) := do
  let is_step := prompts.any (fun p => pyTruthy (pyGet p "step-by-stepRequest" (.jbool false)))
  let res ← if is_step then stepLoopD llm prompts context else parLoopD llm context prompts
  let saved ← savedFrom (prompts.zip res.1)
  return (res.1, saved, res.2)

/-- One element of the detailed variant's per-stage log list. -/
structure StagedData where
  stage_name : String
  detailed_responses : List LlmResult

/-- The per-stage loop of `generate_staged_response_detailed`. -/
def run_stages_detailed (llm : Llm) (user_message : String) (saved : List SavedCtx) :
    List (String × JVal) → List String → List (String × List String) → List SavedCtx →
    List StagedData →
    Except PyErr (List (String × List String) × List SavedCtx × List StagedData)
  | [], _, stage_results, new_saved, staged => .ok (stage_results, new_saved, staged)
  | (stage_name, stageV) :: rest, context_history, stage_results, new_saved, staged => do
      let prompts ← match stageV with
        | .jarr ps => Except.ok ps
        | _ => Except.error (.typeError "stage prompts are not iterable")
      let stage_context := prepare_stage_context user_message context_history stage_results saved
      let res ← execute_stage_prompts_detailed llm prompts stage_context
      let responses_for_next := (res.1.filter
        (fun r => !pyTruthy r.block_outside_context)).map (fun r => r.response_text)
      let all_texts := res.1.map (fun r => r.response_text)
      run_stages_detailed llm user_message saved rest (context_history ++ responses_for_next)
        (dictInsert stage_results stage_name all_texts) (new_saved ++ res.2.1)
        (staged ++ [⟨stage_name, res.2.2⟩])

/-- Shared shape of the detailed variant's two fallback branches: one
detailed direct call; if that call failed, a plain direct call (still inside
the `try`); an exception there lands in the `except`, which retries the plain
call once more — whose own failure escapes. -/
def fallbackDetailed (llm : Llm) (user_message : String) (label : String) :
    Except PyErr (String × List StagedData) :=
  let d := generate_response_detailed llm user_message
  match d with
  | .success t => .ok (t, [⟨label, [d]⟩])
  | .failure _ =>
      match generate_response llm user_message with
      | .ok t => .ok (t, [⟨label, [d]⟩])
      | .error _ =>
          match generate_response llm user_message with
          | .ok t => .ok (t, [])
          | .error e => .error e

/-- `StagedGenerationService.generate_staged_response_detailed`. Its config
guard also runs `validate_config` before its `try`, so a raised `TypeError`
escapes here as well. -/
def generate_staged_response_detailed (llm : Llm) (config : Option JVal)
    (user_message : String) (user_id : String) (store : Store) :
    Store × Except PyErr (String × List StagedData) :=
  match config with
  | none => (store, fallbackDetailed llm user_message "Standard generation")
  | some c =>
      if pyTruthy c then
        match validate_config c with
        | .error e => (store, .error e)
        | .ok false => (store, fallbackDetailed llm user_message "Standard generation")
        | .ok true =>
            match c with
            | .jobj fields =>
                let cleared := clear_saved_context store user_id
                match run_stages_detailed llm user_message cleared.1 fields [] [] [] [] with
                | .error _ =>
                    (cleared.2,
                      fallbackDetailed llm user_message "Fallback standard generation")
                | .ok (stage_results, new_saved, staged) =>
                    let store2 := save_context cleared.2 user_id new_saved
                    match finalText fields stage_results with
                    | .ok t => (store2, .ok (t, staged))
                    | .error _ =>
                        (store2,
                          fallbackDetailed llm user_message "Fallback standard generation")
            | _ => (store, fallbackDetailed llm user_message "Standard generation")
      else (store, fallbackDetailed llm user_message "Standard generation")

/-! Concrete configurations and oracles used to settle individual claims. -/

/-- An always-successful oracle built from a response function. -/
def llmOfFun (f : LlmRequest → String) : Llm := fun req => .success (f req)

/-- The request a classic (plain-text) prompt produces: one user message,
default temperature, no response format. -/
def classicReq (s : String) : LlmRequest := ⟨[⟨.jstr "user", s⟩], .jnum (7 / 10), none⟩

/-- A classic prompt item with the step-by-step flag set. -/
def stepFlaggedItem (t : String) : JVal :=
  .jobj [("prompt", .jstr t), ("step-by-stepRequest", .jbool true)]

/-- A bare classic prompt item. -/
def classicItemJ (t : String) : JVal := .jobj [("prompt", .jstr t)]

/-- Oracle for the block-from-context scenario: answers `RA` / `RB` to the
two stage-1 tasks and echoes any other request (so stage 2's answer exposes
the exact context text stage 2 received). -/
def llmC1 : Llm := fun req =>
  match req.messages with
  | [⟨.jstr "user", c⟩] =>
      if c = "Исходный вопрос пользователя: MSG\n\nЗадача: A" then .success "RA"
      else if c = "Исходный вопрос пользователя: MSG\n\nЗадача: B" then .success "RB"
      else .success c
  | _ => .failure "unexpected"

/-- Two-stage config whose first stage has a `blockOutsideInterstageContext`
prompt next to an unflagged sibling. -/
def cfgC1 : JVal := .jobj
  [("s1", .jarr [.jobj [("prompt", .jstr "A"), ("blockOutsideInterstageContext", .jbool true)],
                 .jobj [("prompt", .jstr "B")]]),
   ("s2", .jarr [.jobj [("prompt", .jstr "C")]])]

/-- Oracle failing exactly on stage 1's first task, succeeding elsewhere
(the bare user message gets `DIRECT`). -/
def llmC2 : Llm := fun req =>
  match req.messages with
  | [⟨.jstr "user", c⟩] =>
      if c = "Исходный вопрос пользователя: MSG\n\nЗадача: A" then .failure "boom"
      else if c = "MSG" then .success "DIRECT"
      else .success "OK2"
  | _ => .failure "unexpected"

/-- One stage with two parallel classic prompts. -/
def cfgC2 : JVal := .jobj
  [("s1", .jarr [.jobj [("prompt", .jstr "A")], .jobj [("prompt", .jstr "B")]])]

/-- A purely structured prompt item (no classic `prompt` field), as the
validator accepts it. -/
def structItemC4 : JVal := .jobj
  [("messages", .jarr [.jobj [("role", .jstr "user"), ("content", .jstr "Analyze {context}")]])]

/-- Config with a single structured prompt. -/
def cfgC4 : JVal := .jobj [("s1", .jarr [structItemC4])]

/-- Oracle distinguishing the direct-fallback request (`MSG`) from any
dispatched structured request. -/
def llmC4 : Llm := fun req =>
  match req.messages with
  | [⟨.jstr "user", c⟩] => if c = "MSG" then .success "DIRECT" else .success "STRUCT"
  | _ => .success "STRUCT"

/-- Constant oracle answering `R`. -/
def llmR : Llm := fun _ => .success "R"

/-- Oracle echoing the request's single message content. -/
def llmEcho : Llm := fun req =>
  match req.messages with
  | [⟨_, c⟩] => .success c
  | _ => .failure "unexpected"

/-- Config saving prompt `P` as carried context. -/
def cfgP : JVal := .jobj
  [("s", .jarr [.jobj [("prompt", .jstr "P"), ("saveLastAsContext", .jbool true)]])]

/-- Plain one-prompt config used for the follow-up generations. -/
def cfgQ : JVal := .jobj [("t", .jarr [.jobj [("prompt", .jstr "Q")]])]

/-- A prompt item in Classic format: a dict with a string `prompt` and no
`messages` field (the shape on which both executors take the classic path). -/
def classicItemOk (p : JVal) : Bool :=
  match p with
  | .jobj fs =>
      (match jlookup? fs "prompt" with
       | some (.jstr _) => true
       | _ => false) && !(jlookup? fs "messages").isSome
  | _ => false

/-- Classic well-formedness of a stage list (each stage's value is a list of
Classic items). -/
def stageListOk (stages : List (String × JVal)) : Bool :=
  stages.all (fun st =>
    match st.2 with
    | .jarr ps => ps.all classicItemOk
    | _ => false)

/-- Classic-format config: every stage maps to a list of Classic items. -/
def classicStages : JVal → Bool
  | .jobj fields => stageListOk fields
  | _ => false

/-- A hashable role value (anything but a Python list or dict). -/
def hashableRole : JVal → Bool
  | .jarr _ => false
  | .jobj _ => false
  | _ => true

/-- A message whose `role` field, if present, is hashable. -/
def msgHashable : JVal → Bool
  | .jobj mfields =>
      match jlookup? mfields "role" with
      | some r => hashableRole r
      | none => true
  | _ => true

/-- A prompt item whose structured messages (if any) all have hashable
roles. -/
def itemHashable : JVal → Bool
  | .jobj fields =>
      match jlookup? fields "messages" with
      | some (.jarr msgs) => msgs.all msgHashable
      | _ => true
  | _ => true

/-- A stage value whose items all satisfy `itemHashable`. -/
def stageHashable : JVal → Bool
  | .jarr items => items.all itemHashable
  | _ => true

/-- A config in which no structured message carries an unhashable role —
the domain on which the source validator cannot raise. -/
def configHashableRoles : JVal → Bool
  | .jobj fields => fields.all (fun f => stageHashable f.2)
  | _ => true

/-- Config holding a structured message whose role is a list — the Python
set-membership test `role not in {...}` raises `TypeError` on it. -/
def cfgBadRole : JVal := .jobj
  [("s1", .jarr [.jobj [("messages", .jarr
      [.jobj [("role", .jarr []), ("content", .jstr "x")]])]])]

/-! Helper lemmas about the context store. -/

theorem storeLookup_erase_self (st : Store) (uid : String) :
    storeLookup (storeErase st uid) uid = none := by
  induction st with
  | nil => rfl
  | cons kv rest ih =>
      obtain ⟨k, v⟩ := kv
      by_cases h : k = uid
      · simpa [storeErase, h] using ih
      · simpa [storeErase, storeLookup, h] using ih

theorem storeLookup_insert_self (st : Store) (uid : String) (e : List SavedCtx) :
    storeLookup (storeInsert st uid e) uid = some e := by
  induction st with
  | nil => simp [storeInsert, storeLookup]
  | cons kv rest ih =>
      obtain ⟨k, v⟩ := kv
      by_cases h : k = uid
      · simp [storeInsert, storeLookup, h]
      · simpa [storeInsert, storeLookup, h] using ih

theorem storeLookup_erase_other (st : Store) (a b : String) (h : a ≠ b) :
    storeLookup (storeErase st a) b = storeLookup st b := by
  induction st with
  | nil => rfl
  | cons kv rest ih =>
      obtain ⟨k, v⟩ := kv
      by_cases hk : k = a
      · simp only [storeErase, storeLookup, hk, if_true, eq_self_iff_true]
        rw [ih, if_neg h]
      · simp only [storeErase, storeLookup, if_neg hk, ih]

theorem storeLookup_insert_other (st : Store) (a b : String) (e : List SavedCtx)
    (h : a ≠ b) :
    storeLookup (storeInsert st a e) b = storeLookup st b := by
  induction st with
  | nil => simp only [storeInsert, storeLookup]; rw [if_neg h]
  | cons kv rest ih =>
      obtain ⟨k, v⟩ := kv
      by_cases hk : k = a
      · simp only [storeInsert, storeLookup, hk, if_true, eq_self_iff_true]
        rw [if_neg h, if_neg h]
      · simp only [storeInsert, storeLookup, if_neg hk, ih]

/-! Monadic reduction helpers for the `Except` embedding. -/

theorem ebind_ok {ε α β : Type} (a : α) (f : α → Except ε β) :
    (Except.ok a : Except ε α) >>= f = f a := rfl

theorem ebind_err {ε α β : Type} (e : ε) (f : α → Except ε β) :
    (Except.error e : Except ε α) >>= f = Except.error e := rfl

theorem epure {ε α : Type} (a : α) : (pure a : Except ε α) = Except.ok a := rfl

/-! Totality of the validator away from its single raising path (an
unhashable structured-message role). -/

theorem pyRoleNotIn_total {r : JVal} (h : hashableRole r = true) :
    ∃ b, pyRoleNotIn r = .ok b := by
  cases r with
  | jarr l => exact absurd h (by simp [hashableRole])
  | jobj l => exact absurd h (by simp [hashableRole])
  | jnull => exact ⟨_, rfl⟩
  | jbool b => exact ⟨_, rfl⟩
  | jnum q => exact ⟨_, rfl⟩
  | jstr s => exact ⟨_, rfl⟩

theorem validMessage_total {m : JVal} (h : msgHashable m = true) :
    ∃ b, validMessage m = .ok b := by
  cases m with
  | jobj mfields =>
      cases hr : jlookup? mfields "role" with
      | none => exact ⟨false, by simp [validMessage, hr]⟩
      | some role =>
          cases hc : jlookup? mfields "content" with
          | none => exact ⟨false, by simp [validMessage, hr, hc]⟩
          | some content =>
              have hrole : hashableRole role = true := by
                simpa [msgHashable, hr] using h
              obtain ⟨b, hb⟩ := pyRoleNotIn_total hrole
              cases b with
              | true =>
                  exact ⟨false, by simp [validMessage, hr, hc, hb, ebind_ok, epure]⟩
              | false =>
                  exact ⟨isStrJ content,
                    by simp [validMessage, hr, hc, hb, ebind_ok, epure]⟩
  | jnull => exact ⟨false, rfl⟩
  | jbool b => exact ⟨false, rfl⟩
  | jnum q => exact ⟨false, rfl⟩
  | jstr s => exact ⟨false, rfl⟩
  | jarr l => exact ⟨false, rfl⟩

theorem validMessages_total :
    ∀ ms : List JVal, ms.all msgHashable = true → ∃ b, validMessages ms = .ok b := by
  intro ms
  induction ms with
  | nil => intro _; exact ⟨true, rfl⟩
  | cons m rest ih =>
      intro hall
      rw [List.all_cons, Bool.and_eq_true] at hall
      obtain ⟨b, hb⟩ := validMessage_total hall.1
      cases b with
      | true =>
          obtain ⟨b2, hb2⟩ := ih hall.2
          exact ⟨b2, by simp [validMessages, hb, ebind_ok, hb2]⟩
      | false => exact ⟨false, by simp [validMessages, hb, ebind_ok, epure]⟩

theorem validate_structured_prompt_total {fields : List (String × JVal)}
    (h : itemHashable (.jobj fields) = true) :
    ∃ b, validate_structured_prompt fields = .ok b := by
  cases hm : jlookup? fields "messages" with
  | none => exact ⟨false, by simp [validate_structured_prompt, hm]⟩
  | some v =>
      cases v with
      | jarr msgs =>
          have hall : msgs.all msgHashable = true := by
            simpa [itemHashable, hm] using h
          by_cases he : msgs.isEmpty
          · exact ⟨false, by simp [validate_structured_prompt, hm, he]⟩
          · obtain ⟨b, hb⟩ := validMessages_total msgs hall
            cases b with
            | true =>
                exact ⟨structuredTailOk fields,
                  by simp [validate_structured_prompt, hm, he, hb, ebind_ok, epure]⟩
            | false =>
                exact ⟨false,
                  by simp [validate_structured_prompt, hm, he, hb, ebind_ok, epure]⟩
      | jnull => exact ⟨false, by simp [validate_structured_prompt, hm]⟩
      | jbool b => exact ⟨false, by simp [validate_structured_prompt, hm]⟩
      | jnum q => exact ⟨false, by simp [validate_structured_prompt, hm]⟩
      | jstr s => exact ⟨false, by simp [validate_structured_prompt, hm]⟩
      | jobj l => exact ⟨false, by simp [validate_structured_prompt, hm]⟩

theorem validate_prompt_item_total {p : JVal} (h : itemHashable p = true) :
    ∃ b, validate_prompt_item p = .ok b := by
  cases p with
  | jobj fields =>
      by_cases hm : (jlookup? fields "messages").isSome
      · obtain ⟨b, hb⟩ := validate_structured_prompt_total h
        exact ⟨b, by simp [validate_prompt_item, hm, hb]⟩
      · exact ⟨validate_classic_prompt fields, by simp [validate_prompt_item, hm]⟩
  | jnull => exact ⟨false, rfl⟩
  | jbool b => exact ⟨false, rfl⟩
  | jnum q => exact ⟨false, rfl⟩
  | jstr s => exact ⟨false, rfl⟩
  | jarr l => exact ⟨false, rfl⟩

theorem validateItems_total :
    ∀ items : List JVal, items.all itemHashable = true →
    ∃ b, validateItems items = .ok b := by
  intro items
  induction items with
  | nil => intro _; exact ⟨true, rfl⟩
  | cons i rest ih =>
      intro hall
      rw [List.all_cons, Bool.and_eq_true] at hall
      obtain ⟨b, hb⟩ := validate_prompt_item_total hall.1
      cases b with
      | true =>
          obtain ⟨b2, hb2⟩ := ih hall.2
          exact ⟨b2, by simp [validateItems, hb, ebind_ok, hb2]⟩
      | false => exact ⟨false, by simp [validateItems, hb, ebind_ok, epure]⟩

theorem validate_stage_total {v : JVal} (h : stageHashable v = true) :
    ∃ b, validate_stage v = .ok b := by
  cases v with
  | jarr items =>
      by_cases he : items.isEmpty
      · exact ⟨false, by simp [validate_stage, he]⟩
      · obtain ⟨b, hb⟩ := validateItems_total items (by simpa [stageHashable] using h)
        exact ⟨b, by simp [validate_stage, he, hb]⟩
  | jnull => exact ⟨false, rfl⟩
  | jbool b => exact ⟨false, rfl⟩
  | jnum q => exact ⟨false, rfl⟩
  | jstr s => exact ⟨false, rfl⟩
  | jobj l => exact ⟨false, rfl⟩

theorem validateStages_total :
    ∀ stages : List (String × JVal), stages.all (fun f => stageHashable f.2) = true →
    ∃ b, validateStages stages = .ok b := by
  intro stages
  induction stages with
  | nil => intro _; exact ⟨true, rfl⟩
  | cons stg rest ih =>
      intro hall
      rw [List.all_cons, Bool.and_eq_true] at hall
      obtain ⟨name, v⟩ := stg
      obtain ⟨b, hb⟩ := validate_stage_total hall.1
      cases b with
      | true =>
          obtain ⟨b2, hb2⟩ := ih hall.2
          exact ⟨b2, by simp [validateStages, hb, ebind_ok, hb2]⟩
      | false => exact ⟨false, by simp [validateStages, hb, ebind_ok, epure]⟩

theorem validate_config_total {c : JVal} (h : configHashableRoles c = true) :
    ∃ b, validate_config c = .ok b := by
  cases c with
  | jobj fields =>
      by_cases he : fields.isEmpty
      · exact ⟨false, by simp [validate_config, he]⟩
      · obtain ⟨b, hb⟩ := validateStages_total fields
          (by simpa [configHashableRoles] using h)
        exact ⟨b, by simp [validate_config, he, hb]⟩
  | jnull => exact ⟨false, rfl⟩
  | jbool b => exact ⟨false, rfl⟩
  | jnum q => exact ⟨false, rfl⟩
  | jstr s => exact ⟨false, rfl⟩
  | jarr l => exact ⟨false, rfl⟩

/-- C1: the claim says a `blockOutsideInterstageContext=true` result is
excluded from the context handed to later stages while staying in its own
stage's result set. The code violates the first half: running the two-stage
config (stage 1: prompt `A` with the flag, prompt `B` without; stage 2:
prompt `C`) with an oracle that answers `RA`/`RB` to stage 1 and echoes
stage 2's request shows stage 2's context text containing `1. RA` — the
blocked result — because `prepare_stage_context` renders the unfiltered
`stage_results` and ignores the filtered `context_history`. The second
conjunct shows the stage's own result set does contain both texts (with the
flag recorded), the half of the claim that holds. -/
theorem blocked_result_included_in_later_stage_context :
    generate_staged_response llmC1 (some cfgC1) "MSG" "u" [] =
      ([], .ok ("Исходный вопрос пользователя: MSG" ++
        "\n\nРезультаты предыдущих этапов:\n\ns1:\n  1. RA\n  2. RB\n\nЗадача: C")) ∧
    execute_stage_prompts llmC1
      [.jobj [("prompt", .jstr "A"), ("blockOutsideInterstageContext", .jbool true)],
       .jobj [("prompt", .jstr "B")]]
      "Исходный вопрос пользователя: MSG" =
      .ok ([⟨"RA", .jbool true⟩, ⟨"RB", .jbool false⟩], []) :=
  ⟨rfl, rfl⟩

/-- C2: the claim says a single failing prompt only taints its own slot with
`"[Ошибка генерации: ...]"` and the batch and pipeline continue. In the code
a failing classic call raises out of `generate_response`, `asyncio.gather`
re-raises, the whole batch aborts, and the top-level handler falls back to a
direct call: with stage-1 prompt `A` failing (`boom`) and sibling `B`
succeeding, `execute_stage_prompts` returns the raised exception and the
pipeline answers with the direct-call result `DIRECT`. -/
theorem single_prompt_failure_aborts_whole_batch :
    execute_stage_prompts llmC2
      [.jobj [("prompt", .jstr "A")], .jobj [("prompt", .jstr "B")]]
      "Исходный вопрос пользователя: MSG" = .error (.exn "boom") ∧
    generate_staged_response llmC2 (some cfgC2) "MSG" "u" [] = ([], .ok "DIRECT") :=
  ⟨rfl, rfl⟩

/-- C3 counterexamples, one per escape route. First: with no active config
and an LLM client that fails every call, the direct fallback call raises and
the exception escapes `generate_staged_response`. Second: with an
always-succeeding client (so the direct call would return text) and a config
holding a structured message whose role is a list, `validate_config` — called
before the `try` — raises `TypeError: unhashable type`, which also escapes.
So it is not true that every failure path terminates in a text result. -/
theorem exception_escapes_run_counterexamples :
    generate_staged_response (fun _ => .failure "boom") none "MSG" "u" [] =
      ([], .error (.exn "boom")) ∧
    generate_staged_response (llmOfFun (fun _ => "ok")) (some cfgBadRole) "MSG" "u" [] =
      ([], .error (.typeError "unhashable type: 'list'")) :=
  ⟨rfl, rfl⟩

/-- C3 amended: for every config state, store and LLM behaviour,
`generate_staged_response` returns a string provided the direct fallback call
itself succeeds and config validation does not raise (no structured message
carries an unhashable role); only those two pre-`try` calls can let an
exception escape. -/
theorem run_returns_text_when_direct_call_succeeds
    (llm : Llm) (config : Option JVal) (msg uid : String) (store : Store)
    (h : ∃ t, generate_response llm msg = .ok t)
    (hval : ∀ c, config = some c → ∃ b, validate_config c = .ok b) :
    ∃ st' s, generate_staged_response llm config msg uid store = (st', .ok s) := by
  obtain ⟨t, ht⟩ := h
  cases config with
  | none => exact ⟨store, t, by simp only [generate_staged_response, ht]⟩
  | some c =>
      obtain ⟨b, hb⟩ := hval c rfl
      by_cases hp : pyTruthy c = true
      · cases b with
        | false =>
            exact ⟨store, t, by simp only [generate_staged_response, hp, if_true, hb, ht]⟩
        | true =>
            cases c with
            | jobj fields =>
                simp only [generate_staged_response, hp, if_true, hb]
                cases hrun :
                    run_stages llm msg (clear_saved_context store uid).1 fields [] [] [] with
                | error e => exact ⟨(clear_saved_context store uid).2, t, by simp only [ht]⟩
                | ok pr =>
                    obtain ⟨sr, ns⟩ := pr
                    cases hfin : finalText fields sr with
                    | ok s =>
                        exact ⟨save_context (clear_saved_context store uid).2 uid ns, s,
                          by simp only [hfin]⟩
                    | error e =>
                        exact ⟨save_context (clear_saved_context store uid).2 uid ns, t,
                          by simp only [hfin, ht]⟩
            | jnull =>
                exact ⟨store, t, by simp only [generate_staged_response, hp, if_true, hb, ht]⟩
            | jbool b2 =>
                exact ⟨store, t, by simp only [generate_staged_response, hp, if_true, hb, ht]⟩
            | jnum q =>
                exact ⟨store, t, by simp only [generate_staged_response, hp, if_true, hb, ht]⟩
            | jstr s =>
                exact ⟨store, t, by simp only [generate_staged_response, hp, if_true, hb, ht]⟩
            | jarr l =>
                exact ⟨store, t, by simp only [generate_staged_response, hp, if_true, hb, ht]⟩
      · rw [Bool.not_eq_true] at hp
        exact ⟨store, t, by
          simp only [generate_staged_response, hp, Bool.false_eq_true, if_false, ht]⟩

/-- C3 amended, witnessed at a concrete input: a succeeding client and no
config yield a text result. -/
theorem run_returns_text_when_direct_call_succeeds_witness :
    ∃ st' s, generate_staged_response (fun _ => .success "ok") none "M" "u" [] =
      (st', .ok s) :=
  run_returns_text_when_direct_call_succeeds (fun _ => .success "ok") none "M" "u" []
    ⟨"ok", rfl⟩ (fun c hc => nomatch hc)

/-- C4: a validated config whose stage holds a purely Structured prompt (no
classic `prompt` key) never reaches the structured dispatch: the executor's
debug-logging loop indexes `prompt_item['prompt']` unconditionally and raises
`KeyError('prompt')` for every oracle and context, so the pipeline falls back
to the direct call (`DIRECT`), not the structured answer. The last conjunct
shows the dispatch function itself, called directly, would have rendered the
message list with `{context}` substituted, temperature 0.7 and no response
format — the behaviour the claim describes. -/
theorem structured_prompt_keyerror_before_dispatch :
    validate_config cfgC4 = .ok true ∧
    (∀ (llm : Llm) (ctx : String),
      execute_stage_prompts llm [structItemC4] ctx = .error (.keyError "prompt")) ∧
    generate_staged_response llmC4 (some cfgC4) "MSG" "u" [] = ([], .ok "DIRECT") ∧
    (∀ llm : Llm,
      generate_single_response_structured llm structItemC4 "CTX" =
        match llm ⟨[⟨.jstr "user", "Analyze CTX"⟩], .jnum (7 / 10), none⟩ with
        | .success t => .ok t
        | .failure e => .error (.exn ("Ошибка структурированной генерации: " ++ e))) :=
  ⟨rfl, fun _ _ => rfl, rfl, fun _ => rfl⟩

/-- C5: the carried-context store is single-use per user: `takeAndClear`
returns exactly the currently stored set and leaves the user's slot empty;
replacing with an empty set is a no-op (so a generation that saves nothing
leaves the carry cleared); replacing with a non-empty set stores exactly it. -/
theorem carried_context_single_use (st : Store) (uid : String) (entries : List SavedCtx) :
    (clear_saved_context st uid).1 = get_saved_context st uid ∧
    get_saved_context (clear_saved_context st uid).2 uid = [] ∧
    save_context st uid [] = st ∧
    (entries ≠ [] → get_saved_context (save_context st uid entries) uid = entries) := by
  refine ⟨rfl, ?_, rfl, ?_⟩
  · simp only [get_saved_context, clear_saved_context, storeLookup_erase_self,
      Option.getD_none]
  · intro h
    have he : entries.isEmpty = false := by cases entries with
      | nil => exact absurd rfl h
      | cons x xs => rfl
    simp only [get_saved_context, save_context, he, Bool.false_eq_true, if_false,
      storeLookup_insert_self, Option.getD_some]

/-- C5 witnessed at a concrete store and entry set. -/
theorem carried_context_single_use_witness :
    get_saved_context (save_context [] "u" [⟨.jstr "p", "r"⟩]) "u" = [⟨.jstr "p", "r"⟩] :=
  (carried_context_single_use [] "u" [⟨.jstr "p", "r"⟩]).2.2.2 (by simp)

/-- C6: mode selection and sequential chaining. With the `step-by-stepRequest`
flag on the first of two classic prompts, the batch runs sequentially: the
second request literally extends the context with
`"\n\nРезультат предыдущего шага: "` plus the first result before its own
`"\n\nЗадача: "` line. Without any flag, both requests are built from the
same base context (parallel mode). Universally over the oracle's response
function, both prompt texts and the base context. -/
theorem step_by_step_forces_sequential_chaining
    (f : LlmRequest → String) (t1 t2 ctx : String) :
    execute_stage_prompts (llmOfFun f) [stepFlaggedItem t1, classicItemJ t2] ctx =
      .ok ([⟨f (classicReq (ctx ++ "\n\nЗадача: " ++ t1)), .jbool false⟩,
            ⟨f (classicReq (ctx ++ "\n\nРезультат предыдущего шага: " ++
                f (classicReq (ctx ++ "\n\nЗадача: " ++ t1)) ++ "\n\nЗадача: " ++ t2)),
             .jbool false⟩], []) ∧
    execute_stage_prompts (llmOfFun f) [classicItemJ t1, classicItemJ t2] ctx =
      .ok ([⟨f (classicReq (ctx ++ "\n\nЗадача: " ++ t1)), .jbool false⟩,
            ⟨f (classicReq (ctx ++ "\n\nЗадача: " ++ t2)), .jbool false⟩], []) :=
  ⟨rfl, rfl⟩

/-- C7 counterexample: `validate_config` does not always return a boolean.
On a structured message whose `role` is a list, the Python set-membership
test `role not in {"system", "user", "assistant"}` hashes the role and raises
`TypeError: unhashable type: 'list'` instead of returning `False` — an input
inside the claim's own "role outside the enum" case. -/
theorem validator_throws_on_unhashable_role_counterexample :
    validate_config cfgBadRole = .error (.typeError "unhashable type: 'list'") :=
  rfl

/-- C7 (amended): `validate_config` is side-effect free and returns a boolean
without throwing for every input in which no structured message carries an
unhashable (list/dict) role; on such a role it raises `TypeError`. On the
no-throw domain it rejects each malformed shape the claim names — the empty
config, a stage mapped to a non-list or an empty list, a Classic item without
a string `prompt`, a Structured message whose (hashable) role is outside
system/user/assistant, a `json_schema` without `type` — and accepts a config
satisfying the rules. -/
theorem validate_config_rejects_and_accepts :
    (∀ c : JVal, configHashableRoles c = true → ∃ b, validate_config c = .ok b) ∧
    validate_config (.jobj []) = .ok false ∧
    validate_config (.jobj [("s1", .jstr "not_a_list")]) = .ok false ∧
    validate_config (.jobj [("s1", .jarr [])]) = .ok false ∧
    validate_config (.jobj [("s1", .jarr [.jobj [("no_prompt", .jstr "x")]])]) = .ok false ∧
    validate_config (.jobj [("s1", .jarr [.jobj [("prompt", .jnum 3)]])]) = .ok false ∧
    validate_config (.jobj [("s1", .jarr [.jobj [("messages", .jarr
      [.jobj [("role", .jstr "robot"), ("content", .jstr "x")]])]])]) = .ok false ∧
    validate_config (.jobj [("s1", .jarr [.jobj [("messages", .jarr
      [.jobj [("role", .jstr "user"), ("content", .jstr "x")]]),
      ("json_schema", .jobj [("properties", .jobj [])])]])]) = .ok false ∧
    validate_config (.jobj
      [("s1", .jarr [.jobj [("prompt", .jstr "Test: {user_message}")],
                     .jobj [("prompt", .jstr "Another test"), ("saveLastAsContext", .jbool true)]]),
       ("s2", .jarr [.jobj [("messages", .jarr
          [.jobj [("role", .jstr "system"), ("content", .jstr "Rules")],
           .jobj [("role", .jstr "user"), ("content", .jstr "{context}")]]),
          ("json_schema", .jobj [("type", .jstr "object")]),
          ("temperature", .jnum (3 / 10))]])]) = .ok true :=
  ⟨fun _ h => validate_config_total h, rfl, rfl, rfl, rfl, rfl, rfl, rfl, rfl⟩

/-- C7 amended, witnessed at a concrete hashable-role config. -/
theorem validate_config_rejects_and_accepts_witness :
    ∃ b, validate_config (.jobj [("s", .jarr [.jobj [("prompt", .jstr "P")]])]) = .ok b :=
  validate_config_rejects_and_accepts.1
    (.jobj [("s", .jarr [.jobj [("prompt", .jstr "P")]])]) rfl

/-- C8: round trip of carried context. Generation 1 (config saving prompt `P`,
LLM answering `R`) stores exactly `{prompt: P, response: R}` for the user and
answers `R`. Generation 2 (echo oracle) receives a stage context containing
the lines `Промпт: P` and `Ответ: R`, and leaves the store empty. Generation 3,
starting from that empty store, sees no carried-context block. -/
theorem saveLastAsContext_round_trip :
    generate_staged_response llmR (some cfgP) "M1" "u" [] =
      ([("u", [⟨.jstr "P", "R"⟩])], .ok "R") ∧
    generate_staged_response llmEcho (some cfgQ) "M2" "u" [("u", [⟨.jstr "P", "R"⟩])] =
      ([], .ok ("Исходный вопрос пользователя: M2" ++
        "\n\nКонтекст из предыдущей генерации:\nПромпт: P\nОтвет: R\n\n\nЗадача: Q")) ∧
    generate_staged_response llmEcho (some cfgQ) "M2" "u" [] =
      ([], .ok "Исходный вопрос пользователя: M2\n\nЗадача: Q") :=
  ⟨rfl, rfl, rfl⟩

/-- C9: user isolation of the context store. For distinct users `a ≠ b`,
take-and-clear and replace for `a` leave `b`'s stored entries unchanged, and
the entries read for `a` are `a`'s own (reads never cross users). -/
theorem context_store_user_isolation (st : Store) (a b : String) (h : a ≠ b)
    (entries : List SavedCtx) :
    get_saved_context (clear_saved_context st a).2 b = get_saved_context st b ∧
    get_saved_context (save_context st a entries) b = get_saved_context st b ∧
    (clear_saved_context st a).1 = get_saved_context st a := by
  refine ⟨?_, ?_, rfl⟩
  · simp only [get_saved_context, clear_saved_context, storeLookup_erase_other st a b h]
  · by_cases he : entries.isEmpty
    · simp only [save_context, he, if_true]
    · simp only [get_saved_context, save_context, he, Bool.false_eq_true, if_false,
        storeLookup_insert_other st a b entries h]

/-! Helper lemmas for the plain/detailed pipeline equivalence (C10). -/

theorem classicItemOk_spec {p : JVal} (h : classicItemOk p = true) :
    ∃ fs s, p = .jobj fs ∧ jlookup? fs "prompt" = some (.jstr s) ∧
      jlookup? fs "messages" = none := by
  cases p with
  | jobj fs =>
      unfold classicItemOk at h
      rw [Bool.and_eq_true] at h
      obtain ⟨h1, h2⟩ := h
      refine ⟨fs, ?_⟩
      cases hp : jlookup? fs "prompt" with
      | none => rw [hp] at h1; exact absurd h1 (by simp)
      | some v =>
          cases v with
          | jstr s =>
              refine ⟨s, rfl, rfl, ?_⟩
              cases hm : jlookup? fs "messages" with
              | none => rfl
              | some w => rw [hm] at h2; exact absurd h2 (by simp)
          | jnull => rw [hp] at h1; exact absurd h1 (by simp)
          | jbool b => rw [hp] at h1; exact absurd h1 (by simp)
          | jnum q => rw [hp] at h1; exact absurd h1 (by simp)
          | jarr l => rw [hp] at h1; exact absurd h1 (by simp)
          | jobj l => rw [hp] at h1; exact absurd h1 (by simp)
  | jnull => exact absurd h (by simp [classicItemOk])
  | jbool b => exact absurd h (by simp [classicItemOk])
  | jnum q => exact absurd h (by simp [classicItemOk])
  | jstr s => exact absurd h (by simp [classicItemOk])
  | jarr l => exact absurd h (by simp [classicItemOk])

theorem logPromptsCheck_classic :
    ∀ ps : List JVal, ps.all classicItemOk = true → logPromptsCheck ps = .ok () := by
  intro ps
  induction ps with
  | nil => intro _; rfl
  | cons p rest ih =>
      intro hall
      rw [List.all_cons, Bool.and_eq_true] at hall
      obtain ⟨fs, s, rfl, hprompt, _⟩ := classicItemOk_spec hall.1
      simp only [logPromptsCheck, pyIndex, hprompt, pyLen, ebind_ok, ih hall.2]

theorem savedFrom_classic :
    ∀ (ps : List JVal) (rs : List ResponseData), ps.all classicItemOk = true →
    ∃ sc, savedFrom (ps.zip rs) = .ok sc := by
  intro ps
  induction ps with
  | nil => intro rs _; exact ⟨[], rfl⟩
  | cons p pr ih =>
      intro rs hall
      rw [List.all_cons, Bool.and_eq_true] at hall
      cases rs with
      | nil => exact ⟨[], rfl⟩
      | cons r rr =>
          obtain ⟨fs, s, rfl, hprompt, _⟩ := classicItemOk_spec hall.1
          obtain ⟨sc, hsc⟩ := ih rr hall.2
          rw [List.zip_eq_zipWith] at hsc
          by_cases hflag :
              pyTruthy (pyGet (.jobj fs) "saveLastAsContext" (.jbool false)) = true
          · refine ⟨⟨.jstr s, r.response_text⟩ :: sc, ?_⟩
            simp [List.zip_cons_cons, savedFrom, hflag, pyIndex, hprompt, ebind_ok,
              epure, hsc]
          · refine ⟨sc, ?_⟩
            simp [List.zip_cons_cons, savedFrom, hflag, hsc]

theorem step_loops_agree (f : LlmRequest → String) :
    ∀ (ps : List JVal) (ctx : String), ps.all classicItemOk = true →
    ∃ rs ds, stepLoop (llmOfFun f) ps ctx = .ok rs ∧
      stepLoopD (llmOfFun f) ps ctx = .ok (rs, ds) := by
  intro ps
  induction ps with
  | nil => intro ctx _; exact ⟨[], [], rfl, rfl⟩
  | cons p rest ih =>
      intro ctx hall
      rw [List.all_cons, Bool.and_eq_true] at hall
      obtain ⟨fs, s, rfl, hprompt, hmsgs⟩ := classicItemOk_spec hall.1
      obtain ⟨rs', ds', hs, hsd⟩ := ih
        (ctx ++ "\n\nРезультат предыдущего шага: " ++
          f ⟨[⟨.jstr "user", ctx ++ "\n\nЗадача: " ++ s⟩], .jnum (7 / 10), none⟩)
        hall.2
      refine ⟨⟨f ⟨[⟨.jstr "user", ctx ++ "\n\nЗадача: " ++ s⟩], .jnum (7 / 10), none⟩,
          pyGet (.jobj fs) "blockOutsideInterstageContext" (.jbool false)⟩ :: rs',
        .success (f ⟨[⟨.jstr "user", ctx ++ "\n\nЗадача: " ++ s⟩], .jnum (7 / 10), none⟩)
          :: ds', ?_, ?_⟩
      · simp [stepLoop, hasKeyJ, hmsgs, pyIndex, hprompt, ebind_ok, epure, pyFStr,
          generate_response, llmOfFun, hs]
      · simp [stepLoopD, pyIndex, hprompt, pyLen, ebind_ok, epure, pyFStr,
          generate_response_detailed, llmOfFun, extractOrError, hsd]

theorem par_loops_agree (f : LlmRequest → String) (ctx : String) :
    ∀ ps : List JVal, ps.all classicItemOk = true →
    ∃ rs ds, parLoop (llmOfFun f) ctx ps = .ok rs ∧
      parLoopD (llmOfFun f) ctx ps = .ok (rs, ds) := by
  intro ps
  induction ps with
  | nil => exact fun _ => ⟨[], [], rfl, rfl⟩
  | cons p rest ih =>
      intro hall
      rw [List.all_cons, Bool.and_eq_true] at hall
      obtain ⟨fs, s, rfl, hprompt, hmsgs⟩ := classicItemOk_spec hall.1
      obtain ⟨rs', ds', hs, hsd⟩ := ih hall.2
      refine ⟨⟨f ⟨[⟨.jstr "user", ctx ++ "\n\nЗадача: " ++ s⟩], .jnum (7 / 10), none⟩,
          pyGet (.jobj fs) "blockOutsideInterstageContext" (.jbool false)⟩ :: rs',
        .success (f ⟨[⟨.jstr "user", ctx ++ "\n\nЗадача: " ++ s⟩], .jnum (7 / 10), none⟩)
          :: ds', ?_, ?_⟩
      · simp [parLoop, parallelTask, hasKeyJ, hmsgs, pyIndex, hprompt, ebind_ok, epure,
          pyFStr, generate_response, llmOfFun, hs]
      · simp [parLoopD, pyIndex, hprompt, pyLen, ebind_ok, epure, pyFStr,
          generate_response_detailed, llmOfFun, extractOrError, hsd]

theorem executors_agree (f : LlmRequest → String) (ps : List JVal) (ctx : String)
    (hall : ps.all classicItemOk = true) :
    ∃ rs sc ds, execute_stage_prompts (llmOfFun f) ps ctx = .ok (rs, sc) ∧
      execute_stage_prompts_detailed (llmOfFun f) ps ctx = .ok (rs, sc, ds) := by
  by_cases hstep :
      (ps.any fun p => pyTruthy (pyGet p "step-by-stepRequest" (.jbool false))) = true
  · obtain ⟨rs, ds, hs, hsd⟩ := step_loops_agree f ps ctx hall
    obtain ⟨sc, hsc⟩ := savedFrom_classic ps rs hall
    refine ⟨rs, sc, ds, ?_, ?_⟩
    · simp only [execute_stage_prompts, hstep, if_true, logPromptsCheck_classic ps hall,
        ebind_ok, hs, hsc]
      rfl
    · simp only [execute_stage_prompts_detailed, hstep, if_true, hsd, ebind_ok, hsc]
      rfl
  · obtain ⟨rs, ds, hs, hsd⟩ := par_loops_agree f ctx ps hall
    obtain ⟨sc, hsc⟩ := savedFrom_classic ps rs hall
    refine ⟨rs, sc, ds, ?_, ?_⟩
    · simp only [execute_stage_prompts, hstep, Bool.false_eq_true, if_false,
        logPromptsCheck_classic ps hall, ebind_ok, hs, hsc]
      rfl
    · simp only [execute_stage_prompts_detailed, hstep, Bool.false_eq_true, if_false,
        hsd, ebind_ok, hsc]
      rfl

theorem run_stages_agree (f : LlmRequest → String) (msg : String) (saved : List SavedCtx) :
    ∀ stages : List (String × JVal), stageListOk stages = true →
    ∀ (hist : List String) (sr : List (String × List String)) (ns : List SavedCtx)
      (staged : List StagedData),
    ∃ sr' ns' sd',
      run_stages (llmOfFun f) msg saved stages hist sr ns = .ok (sr', ns') ∧
      run_stages_detailed (llmOfFun f) msg saved stages hist sr ns staged =
        .ok (sr', ns', sd') := by
  intro stages
  induction stages with
  | nil => exact fun _ hist sr ns staged => ⟨sr, ns, staged, rfl, rfl⟩
  | cons stg rest ih =>
      intro hall hist sr ns staged
      obtain ⟨name, v⟩ := stg
      rw [stageListOk, List.all_cons, Bool.and_eq_true] at hall
      obtain ⟨h1, h2⟩ := hall
      cases v with
      | jarr ps =>
          obtain ⟨rs, sc, ds, hexec, hexecd⟩ := executors_agree f ps
            (prepare_stage_context msg hist sr saved) (by simpa using h1)
          obtain ⟨sr', ns', sd', hrun, hrund⟩ := ih h2
            (hist ++ (rs.filter (fun r => !pyTruthy r.block_outside_context)).map
              (fun r => r.response_text))
            (dictInsert sr name (rs.map (fun r => r.response_text)))
            (ns ++ sc) (staged ++ [⟨name, ds⟩])
          refine ⟨sr', ns', sd', ?_, ?_⟩
          · simp only [run_stages, ebind_ok, hexec, hrun]
          · simp only [run_stages_detailed, ebind_ok, hexecd, hrund]
      | jnull => exact absurd h1 (by simp)
      | jbool b => exact absurd h1 (by simp)
      | jnum q => exact absurd h1 (by simp)
      | jstr s => exact absurd h1 (by simp)
      | jobj l => exact absurd h1 (by simp)

theorem validate_config_jobj {c : JVal} (h : validate_config c = .ok true) :
    ∃ fields, c = .jobj fields ∧ fields.isEmpty = false := by
  cases c with
  | jobj fields =>
      refine ⟨fields, rfl, ?_⟩
      by_cases he : fields.isEmpty
      · rw [validate_config, if_pos he] at h
        exact absurd h (by simp)
      · simpa using he
  | jnull => exact absurd h (by simp [validate_config])
  | jbool b => exact absurd h (by simp [validate_config])
  | jnum q => exact absurd h (by simp [validate_config])
  | jstr s => exact absurd h (by simp [validate_config])
  | jarr l => exact absurd h (by simp [validate_config])

/-- C9 witnessed at a concrete pair of users. -/
theorem context_store_user_isolation_witness :
    get_saved_context (clear_saved_context [("b", [⟨.jstr "p", "r"⟩])] "a").2 "b" =
      get_saved_context [("b", [⟨.jstr "p", "r"⟩])] "b" :=
  (context_store_user_isolation [("b", [⟨.jstr "p", "r"⟩])] "a" "b"
    (by decide) [⟨.jstr "q", "s"⟩]).1

/-- C10: on every valid Classic-format config (every stage a list of items
with a string `prompt` and no `messages` field) and every assignment of LLM
responses under which all calls succeed (an arbitrary response function `f`),
the plain and detailed pipelines return the same final text and leave the
same store; the detailed variant additionally returns its per-stage logs. -/
theorem plain_detailed_pipelines_equivalent
    (f : LlmRequest → String) (cfg : JVal) (msg uid : String) (st : Store)
    (hv : validate_config cfg = .ok true) (hc : classicStages cfg = true) :
    ∃ st' t logs,
      generate_staged_response (llmOfFun f) (some cfg) msg uid st = (st', .ok t) ∧
      generate_staged_response_detailed (llmOfFun f) (some cfg) msg uid st =
        (st', .ok (t, logs)) := by
  obtain ⟨fields, rfl, hne⟩ := validate_config_jobj hv
  have hp : pyTruthy (JVal.jobj fields) = true := by simp [pyTruthy, hne]
  have hstages : stageListOk fields = true := by simpa [classicStages] using hc
  obtain ⟨sr', ns', sd', hrun, hrund⟩ := run_stages_agree f msg
    (clear_saved_context st uid).1 fields hstages [] [] [] []
  cases hfin : finalText fields sr' with
  | ok t =>
      refine ⟨save_context (clear_saved_context st uid).2 uid ns', t, sd', ?_, ?_⟩
      · simp only [generate_staged_response, hp, if_true, hv, hrun, hfin]
      · simp only [generate_staged_response_detailed, hp, if_true, hv, hrund, hfin]
  | error e =>
      refine ⟨save_context (clear_saved_context st uid).2 uid ns',
        f ⟨[⟨.jstr "user", msg⟩], .jnum (7 / 10), none⟩,
        [⟨"Fallback standard generation",
          [.success (f ⟨[⟨.jstr "user", msg⟩], .jnum (7 / 10), none⟩)]⟩], ?_, ?_⟩
      · simp only [generate_staged_response, hp, if_true, hv, hrun, hfin,
          generate_response, llmOfFun]
      · simp only [generate_staged_response_detailed, hp, if_true, hv, hrund, hfin,
          fallbackDetailed, generate_response_detailed, llmOfFun]

/-- C10 witnessed at a concrete config and oracle. -/
theorem plain_detailed_pipelines_equivalent_witness :
    validate_config cfgQ = .ok true ∧ classicStages cfgQ = true ∧
    ∃ st' t logs,
      generate_staged_response (llmOfFun (fun _ => "ok")) (some cfgQ) "M" "u" [] =
        (st', .ok t) ∧
      generate_staged_response_detailed (llmOfFun (fun _ => "ok")) (some cfgQ) "M" "u" [] =
        (st', .ok (t, logs)) :=
  ⟨rfl, rfl, plain_detailed_pipelines_equivalent (fun _ => "ok") cfgQ "M" "u" [] rfl rfl⟩

end LlmChat
